import Mathlib

/-!
Shallow embedding of the video lifecycle tracker and publishing scheduler of
the guidora-automation repository (src/lib/video_tools/video_tracker.py and
src/lib/video_tools/batch_manager.py), together with theorems settling the
frozen claims about it.

Modelling conventions:
* The Python dict `VideoTracker.videos` is an insertion-ordered association
  list `Store`; `Store.set` mirrors dict assignment (replace in place for an
  existing key, append at the end for a new key).
* Timestamps are the ISO-8601 strings the code stores; the current clock
  value is threaded as an explicit `now` parameter, and `datetime` values of
  publishing slots are represented by their (day offset, hour) coordinates.
* Python float fields (`file_size_mb`, `quality_score`) are modelled as
  integers: the code only ever stores and orders them, never does float
  arithmetic on them, so any linearly ordered carrier is faithful.
* `**kwargs` of `update_status` is a list of `FieldUpdate` values, one
  constructor per dataclass field that can be passed as a keyword (every
  declared field except `status`, which is a positional parameter), plus
  `unknownField` for a keyword naming no declared field; the `hasattr`
  check of the code is the membership test of the name in
  `videoMetadataFields`.
* Exceptions are `Except` results; `logger` calls are no-ops.
-/

/-- The eight production states of `VideoStatus` in video_tracker.py. -/
inductive VideoStatus where
  | script_ready
  | in_production
  | video_ready
  | thumbnail_needed
  | ready_to_publish
  | scheduled
  | published
  | failed
deriving DecidableEq, Repr

/-- The `VideoMetadata` dataclass of video_tracker.py. -/
structure VideoMetadata where
  story_id : String
  title : String
  language : String
  status : VideoStatus
  created_at : String
  updated_at : String
  script_path : Option String := none
  video_path : Option String := none
  thumbnail_path : Option String := none
  duration_seconds : Option Int := none
  file_size_mb : Option Int := none
  instadoodle_project_id : Option String := none
  youtube_video_id : Option String := none
  youtube_title : Option String := none
  youtube_description : Option String := none
  youtube_tags : Option (List String) := none
  scheduled_publish_time : Option String := none
  actual_publish_time : Option String := none
  view_count : Option Int := none
  like_count : Option Int := none
  comment_count : Option Int := none
  last_analytics_update : Option String := none
  notes : Option String := none
  quality_score : Option Int := none
deriving DecidableEq, Repr

/-- The declared field names of the `VideoMetadata` dataclass, in
declaration order; `hasattr(video_meta, key)` is `key ∈ videoMetadataFields`. -/
def videoMetadataFields : List String :=
  ["story_id", "title", "language", "status", "created_at", "updated_at",
   "script_path", "video_path", "thumbnail_path",
   "duration_seconds", "file_size_mb", "instadoodle_project_id",
   "youtube_video_id", "youtube_title", "youtube_description", "youtube_tags",
   "scheduled_publish_time", "actual_publish_time",
   "view_count", "like_count", "comment_count", "last_analytics_update",
   "notes", "quality_score"]

/-- One keyword argument of `update_status`: a field name together with the
value to store.  `status` has no constructor because it is a positional
parameter of `update_status` and can never occur in `**kwargs`;
`unknownField` models a keyword whose name is no declared dataclass field. -/
inductive FieldUpdate where
  | story_id (v : String)
  | title (v : String)
  | language (v : String)
  | created_at (v : String)
  | updated_at (v : String)
  | script_path (v : Option String)
  | video_path (v : Option String)
  | thumbnail_path (v : Option String)
  | duration_seconds (v : Option Int)
  | file_size_mb (v : Option Int)
  | instadoodle_project_id (v : Option String)
  | youtube_video_id (v : Option String)
  | youtube_title (v : Option String)
  | youtube_description (v : Option String)
  | youtube_tags (v : Option (List String))
  | scheduled_publish_time (v : Option String)
  | actual_publish_time (v : Option String)
  | view_count (v : Option Int)
  | like_count (v : Option Int)
  | comment_count (v : Option Int)
  | last_analytics_update (v : Option String)
  | notes (v : Option String)
  | quality_score (v : Option Int)
  | unknownField (name : String) (v : String)
deriving DecidableEq, Repr

/-- The keyword name of a `FieldUpdate`. -/
def FieldUpdate.fname : FieldUpdate → String
  | .story_id _ => "story_id"
  | .title _ => "title"
  | .language _ => "language"
  | .created_at _ => "created_at"
  | .updated_at _ => "updated_at"
  | .script_path _ => "script_path"
  | .video_path _ => "video_path"
  | .thumbnail_path _ => "thumbnail_path"
  | .duration_seconds _ => "duration_seconds"
  | .file_size_mb _ => "file_size_mb"
  | .instadoodle_project_id _ => "instadoodle_project_id"
  | .youtube_video_id _ => "youtube_video_id"
  | .youtube_title _ => "youtube_title"
  | .youtube_description _ => "youtube_description"
  | .youtube_tags _ => "youtube_tags"
  | .scheduled_publish_time _ => "scheduled_publish_time"
  | .actual_publish_time _ => "actual_publish_time"
  | .view_count _ => "view_count"
  | .like_count _ => "like_count"
  | .comment_count _ => "comment_count"
  | .last_analytics_update _ => "last_analytics_update"
  | .notes _ => "notes"
  | .quality_score _ => "quality_score"
  | .unknownField n _ => n

/-- `setattr(video_meta, key, value)` for a keyword naming a declared field;
`unknownField` cannot set a declared attribute and leaves the record as is. -/
def FieldUpdate.setField (u : FieldUpdate) (r : VideoMetadata) : VideoMetadata :=
  match u with
  | .story_id v => { r with story_id := v }
  | .title v => { r with title := v }
  | .language v => { r with language := v }
  | .created_at v => { r with created_at := v }
  | .updated_at v => { r with updated_at := v }
  | .script_path v => { r with script_path := v }
  | .video_path v => { r with video_path := v }
  | .thumbnail_path v => { r with thumbnail_path := v }
  | .duration_seconds v => { r with duration_seconds := v }
  | .file_size_mb v => { r with file_size_mb := v }
  | .instadoodle_project_id v => { r with instadoodle_project_id := v }
  | .youtube_video_id v => { r with youtube_video_id := v }
  | .youtube_title v => { r with youtube_title := v }
  | .youtube_description v => { r with youtube_description := v }
  | .youtube_tags v => { r with youtube_tags := v }
  | .scheduled_publish_time v => { r with scheduled_publish_time := v }
  | .actual_publish_time v => { r with actual_publish_time := v }
  | .view_count v => { r with view_count := v }
  | .like_count v => { r with like_count := v }
  | .comment_count v => { r with comment_count := v }
  | .last_analytics_update v => { r with last_analytics_update := v }
  | .notes v => { r with notes := v }
  | .quality_score v => { r with quality_score := v }
  | .unknownField _ _ => r

/-- One iteration of the kwargs loop of `update_status`:
`if hasattr(video_meta, key): setattr(video_meta, key, value)`. -/
def applyKwarg (r : VideoMetadata) (u : FieldUpdate) : VideoMetadata :=
  if u.fname ∈ videoMetadataFields then u.setField r else r

/-- The tracker store `self.videos`: a Python dict keyed by `video_id`,
modelled as an insertion-ordered association list. -/
abbrev Store := List (String × VideoMetadata)

namespace Store

/-- `self.videos.get(video_id)`. -/
def lookup : Store → String → Option VideoMetadata
  | [], _ => none
  | (k, v) :: rest, key => if key = k then some v else lookup rest key

/-- Dict assignment `self.videos[video_id] = meta`: replaces in place when
the key exists, appends at the end otherwise. -/
def set : Store → String → VideoMetadata → Store
  | [], key, v => [(key, v)]
  | (k, w) :: rest, key, v =>
      if key = k then (key, v) :: rest else (k, w) :: set rest key v

/-- `self.videos.values()`, in insertion order. -/
def values (s : Store) : List VideoMetadata := s.map (·.2)

end Store

/-- `VideoTracker.get_videos_by_status`. -/
def get_videos_by_status (s : Store) (st : VideoStatus) : List VideoMetadata :=
  s.values.filter (fun v => v.status = st)

/-- `VideoTracker.get_ready_to_publish_videos`. -/
def get_ready_to_publish_videos (s : Store) : List VideoMetadata :=
  get_videos_by_status s .ready_to_publish

/-- `VideoTracker.register_script`: builds the fresh SCRIPT_READY record and
stores it under `f"{story_id}_{language}"`, returning the new store and the
video id.  There is no existence check before the dict assignment. -/
def register_script (s : Store) (story_id language script_path title : String)
    (duration_seconds : Option Int) (now : String) : Store × String :=
  let video_id := story_id ++ "_" ++ language
  let video_meta : VideoMetadata :=
    { story_id := story_id
      title := title
      language := language
      status := .script_ready
      created_at := now
      updated_at := now
      script_path := some script_path
      duration_seconds := duration_seconds }
  (s.set video_id video_meta, video_id)

/-- `VideoTracker.update_status`: raises `ValueError` when the id is absent,
otherwise sets `status`, stamps `updated_at`, then runs the kwargs loop.
No transition validation of any kind is performed. -/
def update_status (s : Store) (video_id : String) (st : VideoStatus)
    (kwargs : List FieldUpdate) (now : String) : Except String Store :=
  match s.lookup video_id with
  | none => .error ("Video " ++ video_id ++ " not found in tracker")
  | some video_meta =>
      let video_meta := { video_meta with status := st, updated_at := now }
      let video_meta := kwargs.foldl applyKwarg video_meta
      .ok (s.set video_id video_meta)

/-- `VideoTracker.schedule_publishing`: returns `false` when the id is absent
or the record is not READY_TO_PUBLISH; otherwise stores the publish time,
moves the record to SCHEDULED and stamps `updated_at`. -/
def schedule_publishing (s : Store) (video_id : String) (publish_time now : String) :
    Store × Bool :=
  match s.lookup video_id with
  | none => (s, false)
  | some video_meta =>
      if video_meta.status ≠ .ready_to_publish then (s, false)
      else
        (s.set video_id
          { video_meta with
            scheduled_publish_time := some publish_time
            status := .scheduled
            updated_at := now }, true)

/-- Stable insertion of `x` into a list sorted by `le`: `x` goes before the
first element it compares `le` to.  With `le` a total preorder test this is
the insertion step of a stable insertion sort. -/
def insertSorted (le : α → α → Bool) (x : α) : List α → List α
  | [] => [x]
  | y :: ys => if le x y then x :: y :: ys else y :: insertSorted le x ys

/-- Stable sort by `le`; equals the (stable) Python `list.sort` for the
comparison `le a b = (key a ≤ key b)`. -/
def sortBy (le : α → α → Bool) (l : List α) : List α :=
  l.foldr (insertSorted le) []

/-- Lexicographic order on character lists by code point: exactly the
string comparison Python applies to the ISO timestamp strings. -/
def charListLe : List Char → List Char → Bool
  | [], _ => true
  | _ :: _, [] => false
  | a :: as, b :: bs =>
      if a.toNat < b.toNat then true
      else if b.toNat < a.toNat then false
      else charListLe as bs

/-- Python string `<=`: code-point lexicographic order. -/
def strLe (a b : String) : Bool := charListLe a.data b.data

/-- Comparison of `lang_videos.sort(key=lambda v: v.created_at)`. -/
def createdLe (a b : VideoMetadata) : Bool :=
  strLe a.created_at b.created_at

/-- Comparison of the priority sort of `_assign_videos_to_slots`:
ascending lexicographic order on `(-(quality_score or 0), created_at)`. -/
def priorityLe (a b : VideoMetadata) : Bool :=
  let qa : Int := -(a.quality_score.getD 0)
  let qb : Int := -(b.quality_score.getD 0)
  decide (qa < qb) || (decide (qa = qb) && strLe a.created_at b.created_at)

/-- The `upload_schedule` block of the production configuration, with the
default values of batch_manager.py. -/
structure UploadSchedule where
  start_hour : Nat := 10
  end_hour : Nat := 18
  timezone : String := "UTC"
  days_of_week : List Nat := [1, 2, 3, 4, 5]
deriving DecidableEq, Repr

/-- The `quality_thresholds` block of the production configuration.  The
selection and scheduling code never reads these fields; they are carried
only because the configuration declares them. -/
structure QualityThresholds where
  min_duration : Int := 60
  max_duration : Int := 300
  min_readability : Int := 8
  required_assets : List String := ["script", "video", "thumbnail"]
deriving DecidableEq, Repr

/-- `ProductionBatchManager.config` with its default values. -/
structure Config where
  batch_size : Nat := 5
  languages_priority : List String := ["en", "es", "fr", "ur"]
  daily_upload_limit : Nat := 2
  upload_schedule : UploadSchedule := {}
  quality_thresholds : QualityThresholds := {}
deriving DecidableEq, Repr

/-- The per-language batch dictionary built by `get_next_production_batch`,
an insertion-ordered association list like a Python dict. -/
abbrev Batches := List (String × List VideoMetadata)

namespace Batches

/-- Dict read `language_batches.get(lang)`. -/
def getL : Batches → String → Option (List VideoMetadata)
  | [], _ => none
  | (k, v) :: rest, key => if key = k then some v else getL rest key

/-- Dict assignment `language_batches[lang] = vs`. -/
def setL : Batches → String → List VideoMetadata → Batches
  | [], key, v => [(key, v)]
  | (k, w) :: rest, key, v =>
      if key = k then (key, v) :: rest else (k, w) :: setL rest key v

/-- Total number of records over all languages of the batch dictionary. -/
def total (b : Batches) : Nat := (b.map (·.2.length)).sum

/-- All records of the batch dictionary, in dict order. -/
def allVideos (b : Batches) : List VideoMetadata := (b.map (·.2)).flatten

end Batches

/-- `ProductionBatchManager.get_next_production_batch`.  The quota phase
takes up to `max 1 (batch_size / len priorities)` oldest SCRIPT_READY
records per priority language; the fill phase then appends not-yet-selected
SCRIPT_READY records in store (snapshot) order until `batch_size` records
are selected or none remain. -/
def get_next_production_batch (s : Store) (cfg : Config)
    (language_priority : Option (List String)) : Batches :=
  let priorities := language_priority.getD cfg.languages_priority
  let batch_size := cfg.batch_size
  let ready_videos := get_videos_by_status s .script_ready
  let videos_per_language := max 1 (batch_size / priorities.length)
  let language_batches : Batches := priorities.foldl
    (fun acc lang =>
      let lang_videos := sortBy createdLe (ready_videos.filter (fun v => v.language = lang))
      let batch_videos := lang_videos.take videos_per_language
      if batch_videos.isEmpty then acc else acc.setL lang batch_videos)
    []
  let total_selected := language_batches.total
  if total_selected < batch_size then
    let remaining_slots := batch_size - total_selected
    let all_selected_ids :=
      language_batches.allVideos.map (fun v => v.story_id ++ "_" ++ v.language)
    let remaining_videos := ready_videos.filter
      (fun v => decide ((v.story_id ++ "_" ++ v.language) ∉ all_selected_ids))
    (remaining_videos.take remaining_slots).foldl
      (fun acc v => acc.setL v.language (((acc.getL v.language).getD []) ++ [v]))
      language_batches
  else language_batches

/-- The records of a batch dictionary in the iteration order of
`for lang, videos in batch.items(): for video in videos`. -/
def flattenBatch (batch : Batches) : List VideoMetadata := batch.allVideos

/-- The body of `mark_batch_in_production` inside its `try`: updates records
one after the other and stops at the first exception, which makes the whole
call return `False`; updates already performed stay in place. -/
def markLoop (vs : List VideoMetadata) (s : Store) (now today : String) : Store × Bool :=
  match vs with
  | [] => (s, true)
  | v :: rest =>
      match update_status s (v.story_id ++ "_" ++ v.language) .in_production
          [.notes (some ("Started production batch on " ++ today))] now with
      | .error _ => (s, false)
      | .ok s2 => markLoop rest s2 now today

/-- `ProductionBatchManager.mark_batch_in_production`. -/
def mark_batch_in_production (s : Store) (batch : Batches) (now today : String) :
    Store × Bool :=
  markLoop (flattenBatch batch) s now today

/-- The video summary placed into `slot["assigned_video"]`. -/
structure AssignedVideo where
  video_id : String
  title : String
  language : String
  duration : Option Int
  quality_score : Option Int
deriving DecidableEq, Repr

/-- One publishing slot.  The `datetime`/`date` of the code are represented
by the day offset from the start date and the hour of day. -/
structure Slot where
  day_offset : Nat
  hour : Nat
  slot_number : Nat
  assigned_video : Option AssignedVideo
deriving DecidableEq, Repr

/-- `ProductionBatchManager._generate_publishing_slots`.  `startWeekday` is
`date.weekday()` of the start date (Monday = 0); the code compares
`weekday + 1` against `days_of_week`. -/
def generate_publishing_slots (startWeekday : Nat) (cfg : Config) (days : Nat) :
    List Slot :=
  (List.range days).foldl
    (fun slots day_offset =>
      let weekday := (startWeekday + day_offset) % 7 + 1
      if weekday ∈ cfg.upload_schedule.days_of_week then
        let daily_limit := cfg.daily_upload_limit
        let start_hour := cfg.upload_schedule.start_hour
        let end_hour := cfg.upload_schedule.end_hour
        if 0 < daily_limit then
          let hours_available := end_hour - start_hour
          let hour_interval := max 1 (hours_available / daily_limit)
          slots ++ (List.range daily_limit).filterMap
            (fun slot_num =>
              let slot_hour := start_hour + slot_num * hour_interval
              if slot_hour < end_hour then
                some { day_offset := day_offset, hour := slot_hour,
                       slot_number := slot_num + 1, assigned_video := none }
              else none)
        else slots
      else slots)
    []

/-- The `assigned_video` dictionary built from a record. -/
def mkAssigned (v : VideoMetadata) : AssignedVideo :=
  { video_id := v.story_id ++ "_" ++ v.language
    title := v.title
    language := v.language
    duration := v.duration_seconds
    quality_score := v.quality_score }

/-- `ProductionBatchManager._assign_videos_to_slots`: sorts by priority and
pairs slots with records one to one until either list is exhausted. -/
def assign_videos_to_slots (videos : List VideoMetadata) (slots : List Slot) :
    List Slot :=
  if videos.isEmpty || slots.isEmpty then []
  else
    let sorted_videos := sortBy priorityLe videos
    (slots.zip sorted_videos).map
      (fun p => { p.1 with assigned_video := some (mkAssigned p.2) })

/-- `ProductionBatchManager.get_publishing_queue`. -/
def get_publishing_queue (s : Store) (cfg : Config) (startWeekday days_ahead : Nat) :
    List Slot :=
  let ready_videos := get_ready_to_publish_videos s
  if ready_videos.isEmpty then []
  else assign_videos_to_slots ready_videos
        (generate_publishing_slots startWeekday cfg days_ahead)

/-- The ISO-like rendering of the `datetime` carried by a slot, used as the
`scheduled_publish_time` value. -/
def slotTime (slot : Slot) : String :=
  "day" ++ toString slot.day_offset ++ "T" ++ toString slot.hour ++ ":00"

/-- The scheduling loop of `auto_schedule_videos`: each slot with an
assigned video goes through `schedule_publishing`; a `False` return is
counted as a skip and the loop continues. -/
def schedLoop (queue : List Slot) (s : Store) (count : Nat) (now : String) :
    Store × Nat :=
  match queue with
  | [] => (s, count)
  | slot :: rest =>
      match slot.assigned_video with
      | none => schedLoop rest s count now
      | some av =>
          let r := schedule_publishing s av.video_id (slotTime slot) now
          schedLoop rest r.1 (if r.2 then count + 1 else count) now

/-- `ProductionBatchManager.auto_schedule_videos`: builds the queue, runs the
scheduling loop and returns `scheduled_count > 0`. -/
def auto_schedule_videos (s : Store) (cfg : Config) (startWeekday days_ahead : Nat)
    (now : String) : Store × Bool :=
  let queue := get_publishing_queue s cfg startWeekday days_ahead
  let r := schedLoop queue s 0 now
  (r.1, decide (0 < r.2))

/-- The block of slots `_generate_publishing_slots` produces for one day
offset: empty when the weekday is skipped or the daily limit is zero,
otherwise one slot per `slot_num` below the limit whose hour stays below
`end_hour`. -/
def daySlots (startWeekday : Nat) (cfg : Config) (day_offset : Nat) : List Slot :=
  if (startWeekday + day_offset) % 7 + 1 ∈ cfg.upload_schedule.days_of_week then
    if 0 < cfg.daily_upload_limit then
      (List.range cfg.daily_upload_limit).filterMap
        (fun slot_num =>
          let slot_hour := cfg.upload_schedule.start_hour + slot_num *
            max 1 ((cfg.upload_schedule.end_hour - cfg.upload_schedule.start_hour) /
              cfg.daily_upload_limit)
          if slot_hour < cfg.upload_schedule.end_hour then
            some { day_offset := day_offset, hour := slot_hour,
                   slot_number := slot_num + 1, assigned_video := none }
          else none)
    else []
  else []

/-- The selection algorithm exactly as claim C4 words it, for comparison
with `get_next_production_batch`: the per-language quota is
`floor(batch_size / len L)` (no lower bound of 1), and the leftover fill
runs over the not-yet-selected SCRIPT_READY records in ascending
`created_at` order.  Everything else follows the code. -/
def claimedBatchSelection (s : Store) (batch_size : Nat) (L : List String) : Batches :=
  let ready_videos := get_videos_by_status s .script_ready
  let videos_per_language := batch_size / L.length
  let language_batches : Batches := L.foldl
    (fun acc lang =>
      let lang_videos := sortBy createdLe (ready_videos.filter (fun v => v.language = lang))
      let batch_videos := lang_videos.take videos_per_language
      if batch_videos.isEmpty then acc else acc.setL lang batch_videos)
    []
  let total_selected := language_batches.total
  if total_selected < batch_size then
    let remaining_slots := batch_size - total_selected
    let all_selected_ids :=
      language_batches.allVideos.map (fun v => v.story_id ++ "_" ++ v.language)
    let remaining_videos := sortBy createdLe (ready_videos.filter
      (fun v => decide ((v.story_id ++ "_" ++ v.language) ∉ all_selected_ids)))
    (remaining_videos.take remaining_slots).foldl
      (fun acc v => acc.setL v.language (((acc.getL v.language).getD []) ++ [v]))
      language_batches
  else language_batches

/-- The store resulting from the successful prefix of the
`mark_batch_in_production` loop: records are updated one by one, a failing
update leaving the store as it is. -/
def markAll (s : Store) (vs : List VideoMetadata) (now today : String) : Store :=
  vs.foldl
    (fun st v =>
      match update_status st (v.story_id ++ "_" ++ v.language) .in_production
          [.notes (some ("Started production batch on " ++ today))] now with
      | .ok st2 => st2
      | .error _ => st)
    s

/-- Relation between the store before and during `auto_schedule_videos`:
every key either still holds its old record, or held a READY_TO_PUBLISH
record that is now SCHEDULED with a publish time. -/
def ReachSched (s st : Store) : Prop :=
  ∀ k, st.lookup k = s.lookup k ∨
    (∃ v v2, s.lookup k = some v ∧ v.status = .ready_to_publish ∧
      st.lookup k = some v2 ∧ v2.status = .scheduled ∧
      v2.scheduled_publish_time ≠ none)

/-- Some record was moved from READY_TO_PUBLISH to SCHEDULED with a
non-null publish time between the two stores. -/
def WitnessSched (s st : Store) : Prop :=
  ∃ vid v v2, s.lookup vid = some v ∧ v.status = .ready_to_publish ∧
    st.lookup vid = some v2 ∧ v2.status = .scheduled ∧
    v2.scheduled_publish_time ≠ none

/-- The record written by a successful `schedule_publishing`: publish time
stored, status moved to SCHEDULED, `updated_at` stamped. -/
def schedRec (v : VideoMetadata) (pt now : String) : VideoMetadata :=
  { v with scheduled_publish_time := some pt, status := .scheduled, updated_at := now }

/-! ## Concrete instances used by counterexamples and witnesses -/

/-- A minimal record with the given identity, creation timestamp and status. -/
def mkRec (sid lang created : String) (st : VideoStatus) : VideoMetadata :=
  { story_id := sid, title := sid, language := lang, status := st,
    created_at := created, updated_at := created }

/-- A SCRIPT_READY English record. -/
def recA : VideoMetadata := mkRec "a" "en" "T0" .script_ready

/-- A SCRIPT_READY French record. -/
def recB : VideoMetadata := mkRec "b" "fr" "T0" .script_ready

/-- A record whose computed video id `ghost_en` is absent from the stores
below. -/
def recGhost : VideoMetadata := mkRec "ghost" "en" "T0" .script_ready

/-- A SCRIPT_READY record stored under `g_en`. -/
def recG : VideoMetadata := mkRec "g" "en" "T0" .script_ready

/-- One SCRIPT_READY record per language, oldest first in store order. -/
def recAen : VideoMetadata := mkRec "a" "en" "t1" .script_ready
def recBes : VideoMetadata := mkRec "b" "es" "t2" .script_ready
def recCfr : VideoMetadata := mkRec "c" "fr" "t3" .script_ready
def storeABC : Store := [("a_en", recAen), ("b_es", recBes), ("c_fr", recCfr)]

/-- Five SCRIPT_READY English records (ascending `created_at`) and one
Spanish one, the scenario of the worked example of the spec. -/
def recE1 : VideoMetadata := mkRec "e1" "en" "t1" .script_ready
def recE2 : VideoMetadata := mkRec "e2" "en" "t2" .script_ready
def recE3 : VideoMetadata := mkRec "e3" "en" "t3" .script_ready
def recE4 : VideoMetadata := mkRec "e4" "en" "t4" .script_ready
def recE5 : VideoMetadata := mkRec "e5" "en" "t5" .script_ready
def recS1 : VideoMetadata := mkRec "s1" "es" "t6" .script_ready
def storeFive : Store :=
  [("e1_en", recE1), ("e2_en", recE2), ("e3_en", recE3),
   ("e4_en", recE4), ("e5_en", recE5), ("s1_es", recS1)]

/-- Store whose insertion order disagrees with `created_at` order: the later
Spanish record was created before the earlier one. -/
def recFa : VideoMetadata := mkRec "a" "en" "2" .script_ready
def recFb : VideoMetadata := mkRec "b" "es" "9" .script_ready
def recFc : VideoMetadata := mkRec "c" "es" "5" .script_ready
def storeFill : Store := [("a_en", recFa), ("b_es", recFb), ("c_es", recFc)]

/-- A READY_TO_PUBLISH record far outside the quality thresholds: 10 seconds
long, no video file, no thumbnail. -/
def recX : VideoMetadata :=
  { mkRec "x" "en" "t1" .ready_to_publish with duration_seconds := some 10 }

/-- Reachable chain for the publish-time invariant: register, move to
READY_TO_PUBLISH, schedule, then update to PUBLISHED. -/
def c7s0 : Store := (register_script [] "x" "en" "p" "X" none "T0").1
def c7s1 : Store := (update_status c7s0 "x_en" .ready_to_publish [] "T1").toOption.getD []
def c7s2 : Store := (schedule_publishing c7s1 "x_en" "2025-01-06T10:00" "T2").1
def c7s3 : Store := (update_status c7s2 "x_en" .published [] "T3").toOption.getD []

/-! ## Basic lemmas about the store, the batch dictionary and the sorts -/

namespace Store

theorem lookup_set_self (s : Store) (k : String) (v : VideoMetadata) :
    (s.set k v).lookup k = some v := by
  induction s with
  | nil => simp [set, lookup]
  | cons p rest ih =>
      obtain ⟨k0, v0⟩ := p
      by_cases h : k = k0
      · simp [set, lookup, h]
      · simp [set, lookup, h, ih]

theorem lookup_set_ne (s : Store) (k k2 : String) (v : VideoMetadata)
    (h : k2 ≠ k) : (s.set k v).lookup k2 = s.lookup k2 := by
  induction s with
  | nil => simp [set, lookup, h]
  | cons p rest ih =>
      obtain ⟨k0, v0⟩ := p
      by_cases hk : k = k0
      · subst hk
        simp [set, lookup, h]
      · by_cases hk2 : k2 = k0 <;> simp [set, lookup, hk, hk2, ih]

theorem lookup_set_isSome (s : Store) (k k2 : String) (v : VideoMetadata)
    (h : (s.lookup k).isSome) :
    ((s.set k v).lookup k2).isSome = (s.lookup k2).isSome := by
  by_cases hk : k2 = k
  · subst hk
    rw [lookup_set_self]
    exact (Option.isSome_some).symm ▸ h.symm ▸ rfl
  · rw [lookup_set_ne _ _ _ _ hk]

end Store

namespace Batches

theorem total_setL_le (b : Batches) (k : String) (v : List VideoMetadata) :
    (b.setL k v).total ≤ b.total + v.length := by
  induction b with
  | nil => simp [setL, total]
  | cons p rest ih =>
      obtain ⟨k0, v0⟩ := p
      by_cases h : k = k0
      · simp only [setL, if_pos h, total, List.map_cons, List.sum_cons]
        omega
      · simp only [setL, if_neg h, total, List.map_cons, List.sum_cons]
        have := ih
        simp only [total] at this
        omega

theorem total_setL_append (b : Batches) (k : String) (v : VideoMetadata) :
    (b.setL k (((b.getL k).getD []) ++ [v])).total = b.total + 1 := by
  induction b with
  | nil => simp [setL, getL, total]
  | cons p rest ih =>
      obtain ⟨k0, v0⟩ := p
      by_cases h : k = k0
      · simp only [setL, getL, if_pos h, total, List.map_cons, List.sum_cons,
          Option.getD_some, List.length_append, List.length_singleton]
        omega
      · simp only [setL, getL, if_neg h, total, List.map_cons, List.sum_cons] at ih ⊢
        omega

theorem mem_allVideos_setL (b : Batches) (k : String) (v : List VideoMetadata)
    (x : VideoMetadata) (hx : x ∈ (b.setL k v).allVideos) :
    x ∈ b.allVideos ∨ x ∈ v := by
  induction b with
  | nil =>
      simp only [setL, allVideos, List.map_cons, List.map_nil, List.flatten] at hx
      simp only [allVideos, List.map_nil, List.flatten]
      simp at hx
      tauto
  | cons p rest ih =>
      obtain ⟨k0, v0⟩ := p
      by_cases h : k = k0
      · simp only [setL, if_pos h, allVideos, List.map_cons, List.flatten_cons,
          List.mem_append] at hx ⊢
        tauto
      · simp only [setL, if_neg h, allVideos, List.map_cons, List.flatten_cons,
          List.mem_append] at hx ⊢
        rcases hx with hx | hx
        · tauto
        · rcases ih hx with h2 | h2 <;> tauto

end Batches

theorem mem_insertSorted (le : α → α → Bool) (x a : α) (l : List α) :
    a ∈ insertSorted le x l ↔ a = x ∨ a ∈ l := by
  induction l with
  | nil => simp [insertSorted]
  | cons y ys ih =>
      by_cases h : le x y
      · simp [insertSorted, h]
      · simp [insertSorted, h, ih]
        all_goals tauto

theorem mem_sortBy (le : α → α → Bool) (a : α) (l : List α) :
    a ∈ sortBy le l ↔ a ∈ l := by
  induction l with
  | nil => simp [sortBy]
  | cons y ys ih =>
      simp only [sortBy, List.foldr_cons] at ih ⊢
      rw [mem_insertSorted, ih, List.mem_cons]

theorem applyKwarg_status (v : VideoMetadata) (u : FieldUpdate) :
    (applyKwarg v u).status = v.status := by
  cases u <;> simp only [applyKwarg] <;> split <;> rfl

theorem foldl_applyKwarg_status (ks : List FieldUpdate) (v : VideoMetadata) :
    (ks.foldl applyKwarg v).status = v.status := by
  induction ks generalizing v with
  | nil => rfl
  | cons u rest ih => rw [List.foldl_cons, ih, applyKwarg_status]

/-! ## Claim C1 -/

/-- **C1, counterexample.**  On a record currently in SCRIPT_READY,
requesting PUBLISHED — an edge not in the StatusMachine table — does not
raise anything: `update_status` returns `.ok` and the record is changed
(status and `updated_at` overwritten), contradicting the claim that the call
raises `InvalidTransitionError` and leaves the record entirely unchanged. -/
theorem update_status_invalid_edge_accepted :
    recA.status = .script_ready ∧
    (update_status [("a_en", recA)] "a_en" .published [] "T1").toOption
      = some [("a_en", { recA with status := .published, updated_at := "T1" })] ∧
    ({ recA with status := .published, updated_at := "T1" }) ≠ recA := by
  decide

/-- **C1, amended.**  `update_status` performs no transition validation at
all: for every store state, every `video_id` present with current record
`r`, every requested status `t` (whether or not the edge
`r.status → t` is in the StatusMachine table of the spec) and any kwargs,
the call succeeds with `.ok` — no `InvalidTransitionError` exists in the
code — and afterwards the stored record carries status `t`. -/
theorem update_status_no_transition_validation
    (s : Store) (vid : String) (r : VideoMetadata) (t : VideoStatus)
    (ks : List FieldUpdate) (now : String) (h : s.lookup vid = some r) :
    ∃ s2, update_status s vid t ks now = .ok s2 ∧
      ∃ r2, s2.lookup vid = some r2 ∧ r2.status = t := by
  refine ⟨s.set vid (ks.foldl applyKwarg { r with status := t, updated_at := now }),
    ?_, ?_⟩
  · simp only [update_status, h]
  · exact ⟨_, Store.lookup_set_self _ _ _, foldl_applyKwarg_status _ _⟩

/-- Closed instance of `update_status_no_transition_validation` at the
SCRIPT_READY → PUBLISHED edge. -/
theorem update_status_no_transition_validation_witness :
    ([("a_en", recA)] : Store).lookup "a_en" = some recA ∧
    ∃ s2, update_status [("a_en", recA)] "a_en" .published [] "T1" = .ok s2 ∧
      ∃ r2, s2.lookup "a_en" = some r2 ∧ r2.status = .published :=
  ⟨by decide,
   update_status_no_transition_validation [("a_en", recA)] "a_en" recA .published
     [] "T1" (by decide)⟩

/-! ## Claim C2 -/

/-- **C2, counterexample.**  Registering the pair `("a", "en")` twice does
not fail: the second `register_script` call returns normally (the function
is total, there is no `DuplicateError` path) and silently replaces the
existing record, whose title changes from `TitleOne` to `TitleTwo`. -/
theorem register_script_duplicate_overwrites :
    (let s0 := (register_script [] "a" "en" "p1" "TitleOne" none "T0").1
     let s1 := (register_script s0 "a" "en" "p2" "TitleTwo" none "T1").1
     (register_script s0 "a" "en" "p2" "TitleTwo" none "T1").2 = "a_en" ∧
     s0.lookup "a_en" ≠ s1.lookup "a_en" ∧
     (s0.lookup "a_en").map VideoMetadata.title = some "TitleOne" ∧
     (s1.lookup "a_en").map VideoMetadata.title = some "TitleTwo") := by
  decide

/-- **C2, amended.**  `register_script` never fails: for every store state
— whether or not the key `"{story_id}_{language}"` is already present — it
returns that video id and stores a fresh SCRIPT_READY record under it,
silently replacing any existing record; every other key is untouched. -/
theorem register_script_overwrites (s : Store) (sid lang path ttl : String)
    (dur : Option Int) (now : String) :
    (register_script s sid lang path ttl dur now).2 = sid ++ "_" ++ lang ∧
    (register_script s sid lang path ttl dur now).1.lookup (sid ++ "_" ++ lang) =
      some { story_id := sid, title := ttl, language := lang,
             status := .script_ready, created_at := now, updated_at := now,
             script_path := some path, duration_seconds := dur } ∧
    ∀ k, k ≠ sid ++ "_" ++ lang →
      (register_script s sid lang path ttl dur now).1.lookup k = s.lookup k :=
  ⟨rfl, Store.lookup_set_self _ _ _, fun _ hk => Store.lookup_set_ne _ _ _ _ hk⟩

/-- Closed instance of `register_script_overwrites`: a re-registration
leaves an unrelated key untouched. -/
theorem register_script_overwrites_witness :
    (register_script [("a_en", recA), ("b_fr", recB)] "a" "en" "p2" "A2" none "T2").1.lookup "b_fr"
      = ([("a_en", recA), ("b_fr", recB)] : Store).lookup "b_fr" :=
  (register_script_overwrites [("a_en", recA), ("b_fr", recB)] "a" "en" "p2" "A2"
    none "T2").2.2 "b_fr" (by decide)

/-! ## Claim C10 -/

/-- **C10, confirmed.**  `update_status` on an existing `video_id` succeeds
and modifies only the record stored under that id (frame property); the
target record is the original with `status` and `updated_at` overwritten
first and the kwargs then applied in order; the final status is always the
requested one (no kwarg can name `status`); and a keyword whose name is not
a declared `VideoMetadata` field is silently ignored — no error, no effect. -/
theorem update_status_frame (s : Store) (vid : String) (r : VideoMetadata)
    (t : VideoStatus) (ks : List FieldUpdate) (now : String)
    (h : s.lookup vid = some r) :
    ∃ s2, update_status s vid t ks now = .ok s2 ∧
      (∀ k, k ≠ vid → s2.lookup k = s.lookup k) ∧
      s2.lookup vid = some (ks.foldl applyKwarg { r with status := t, updated_at := now }) ∧
      (ks.foldl applyKwarg { r with status := t, updated_at := now }).status = t ∧
      (∀ u ∈ ks, u.fname ∉ videoMetadataFields → ∀ v, applyKwarg v u = v) := by
  refine ⟨s.set vid (ks.foldl applyKwarg { r with status := t, updated_at := now }),
    ?_, fun k hk => Store.lookup_set_ne _ _ _ _ hk, Store.lookup_set_self _ _ _,
    foldl_applyKwarg_status _ _, fun u _ hu v => by simp [applyKwarg, hu]⟩
  simp only [update_status, h]

/-- Closed instance of `update_status_frame` with one known and one unknown
keyword: only the target record changes, the known keyword overwrites the
title, the unknown keyword has no effect. -/
theorem update_status_frame_witness :
    ∃ s2, update_status [("a_en", recA), ("b_fr", recB)] "a_en" .in_production
        [.title "New", .unknownField "retry_count" "3"] "T1" = .ok s2 ∧
      s2.lookup "b_fr" = some recB ∧
      (s2.lookup "a_en").map (fun r => (r.title, r.status))
        = some ("New", .in_production) := by
  obtain ⟨s2, h1, hframe, htarget, hstatus, hunk⟩ :=
    update_status_frame [("a_en", recA), ("b_fr", recB)] "a_en" recA .in_production
      [.title "New", .unknownField "retry_count" "3"] "T1" (by decide)
  refine ⟨s2, h1, ?_, ?_⟩
  · rw [hframe "b_fr" (by decide)]
    decide
  · rw [htarget]
    decide

/-! ## Claim C7 -/

/-- **C7, counterexample.**  In the reachable chain register →
READY_TO_PUBLISH → schedule → PUBLISHED, the final store violates the
claimed invariant: the record has status PUBLISHED while
`scheduled_publish_time` is still non-null and `actual_publish_time` is
null — the SCHEDULED → PUBLISHED update clears nothing and sets nothing. -/
theorem scheduled_time_not_cleared_on_publish :
    ((c7s2.lookup "x_en").map
        (fun r => (r.status, r.scheduled_publish_time, r.actual_publish_time))
      = some (.scheduled, some "2025-01-06T10:00", none)) ∧
    ((c7s3.lookup "x_en").map
        (fun r => (r.status, r.scheduled_publish_time, r.actual_publish_time))
      = some (.published, some "2025-01-06T10:00", none)) := by
  decide

/-- **C7, amended.**  `register_script` creates records with both publish
times null, and a successful `schedule_publishing` does establish status
SCHEDULED together with a non-null `scheduled_publish_time`; but
`update_status` does not maintain the claimed iff invariant: the plain
SCHEDULED → PUBLISHED update leaves `scheduled_publish_time` exactly as it
was (still non-null) and leaves `actual_publish_time` untouched (null unless
the caller set it), so the invariant fails in reachable states. -/
theorem publish_time_fields_behaviour :
    (∀ s sid lang path ttl dur now,
      ∃ r, (register_script s sid lang path ttl dur now).1.lookup (sid ++ "_" ++ lang)
          = some r ∧
        r.scheduled_publish_time = none ∧ r.actual_publish_time = none ∧
        r.status = .script_ready) ∧
    (∀ s vid pt now s2, schedule_publishing s vid pt now = (s2, true) →
      ∃ r2, s2.lookup vid = some r2 ∧ r2.status = .scheduled ∧
        r2.scheduled_publish_time = some pt) ∧
    (∀ (s : Store) vid r now, s.lookup vid = some r → r.status = .scheduled →
      ∃ s2, update_status s vid .published [] now = .ok s2 ∧
        s2.lookup vid = some { r with status := .published, updated_at := now } ∧
        ({ r with status := .published, updated_at := now }).scheduled_publish_time
          = r.scheduled_publish_time ∧
        ({ r with status := .published, updated_at := now }).actual_publish_time
          = r.actual_publish_time) := by
  refine ⟨?_, ?_, ?_⟩
  · intro s sid lang path ttl dur now
    exact ⟨_, Store.lookup_set_self _ _ _, rfl, rfl, rfl⟩
  · intro s vid pt now s2 h
    simp only [schedule_publishing] at h
    split at h
    · simp at h
    · split at h
      · simp at h
      · injection h with h1 h2
        subst h1
        exact ⟨_, Store.lookup_set_self _ _ _, rfl, rfl⟩
  · intro s vid r now h _
    exact ⟨s.set vid { r with status := .published, updated_at := now },
      by simp only [update_status, h, List.foldl_nil], Store.lookup_set_self _ _ _,
      rfl, rfl⟩

/-- Closed instance of `publish_time_fields_behaviour`: the plain
SCHEDULED → PUBLISHED update in the concrete reachable chain keeps the
non-null `scheduled_publish_time` and the null `actual_publish_time`. -/
theorem publish_time_fields_behaviour_witness :
    ∃ s2, update_status c7s2 "x_en" .published [] "T3" = .ok s2 ∧
      (s2.lookup "x_en").map
          (fun r => (r.status, r.scheduled_publish_time, r.actual_publish_time))
        = some (.published, some "2025-01-06T10:00", none) := by
  obtain ⟨s2, h1, h2, h3, h4⟩ :=
    publish_time_fields_behaviour.2.2 c7s2 "x_en"
      { (mkRec "x" "en" "T0" .script_ready) with
        title := "X", script_path := some "p", updated_at := "T2",
        status := .scheduled, scheduled_publish_time := some "2025-01-06T10:00" }
      "T3" (by decide) (by decide)
  refine ⟨s2, h1, ?_⟩
  rw [h2]
  decide

/-! ## Claim C6 -/

/-- A successful `update_status` changes no key set: every id present before
is present after, and conversely. -/
theorem update_status_preserves_keys (s s2 : Store) (vid : String)
    (st : VideoStatus) (ks : List FieldUpdate) (now : String)
    (h : update_status s vid st ks now = .ok s2) :
    ∀ k, (s2.lookup k).isSome = (s.lookup k).isSome := by
  intro k
  cases hv : s.lookup vid with
  | none =>
      simp only [update_status, hv] at h
      exact Except.noConfusion h
  | some r =>
      simp only [update_status, hv, Except.ok.injEq] at h
      subst h
      exact Store.lookup_set_isSome s vid k _ (by rw [hv]; rfl)

/-- An `Option` whose `isSome` is `false` is `none`. -/
theorem eq_none_of_isSome_eq_false {α : Type} {o : Option α}
    (h : o.isSome = false) : o = none := by
  cases o
  · rfl
  · simp at h

/-- The loop of `mark_batch_in_production` on a list whose prefix consists
of records with known ids followed by one whose id is absent: the prefix is
updated, the failure aborts the rest, the result is `false`. -/
theorem markLoop_fail_prefix (now today : String) :
    ∀ (pre : List VideoMetadata) (s : Store) (bad : VideoMetadata)
      (post : List VideoMetadata),
      (∀ v ∈ pre, (s.lookup (v.story_id ++ "_" ++ v.language)).isSome) →
      s.lookup (bad.story_id ++ "_" ++ bad.language) = none →
      markLoop (pre ++ bad :: post) s now today = (markAll s pre now today, false) := by
  intro pre
  induction pre with
  | nil =>
      intro s bad post _ hbad
      simp only [List.nil_append, markLoop, markAll, List.foldl_nil,
        update_status, hbad]
  | cons v rest ih =>
      intro s bad post hpre hbad
      have hv : (s.lookup (v.story_id ++ "_" ++ v.language)).isSome :=
        hpre v (List.mem_cons_self v rest)
      obtain ⟨r, hr⟩ := Option.isSome_iff_exists.mp hv
      obtain ⟨s2, hupd⟩ : ∃ s2, update_status s (v.story_id ++ "_" ++ v.language)
          .in_production [.notes (some ("Started production batch on " ++ today))] now
          = .ok s2 := by
        simp only [update_status, hr]
        exact ⟨_, rfl⟩
      have hkeys := update_status_preserves_keys _ _ _ _ _ _ hupd
      simp only [List.cons_append, markLoop, hupd, markAll, List.foldl_cons]
      have hbad2 : s2.lookup (bad.story_id ++ "_" ++ bad.language) = none := by
        refine eq_none_of_isSome_eq_false ?_
        rw [hkeys (bad.story_id ++ "_" ++ bad.language), hbad]
        rfl
      have hpre2 : ∀ w ∈ rest,
          (s2.lookup (w.story_id ++ "_" ++ w.language)).isSome := by
        intro w hw
        rw [hkeys (w.story_id ++ "_" ++ w.language)]
        exact hpre w (List.mem_cons_of_mem v hw)
      exact ih s2 bad post hpre2 hbad2

/-- The loop of `mark_batch_in_production` when every id of the batch is
present: every record is updated and the call returns `true`. -/
theorem markLoop_all_ok (now today : String) :
    ∀ (vs : List VideoMetadata) (s : Store),
      (∀ v ∈ vs, (s.lookup (v.story_id ++ "_" ++ v.language)).isSome) →
      markLoop vs s now today = (markAll s vs now today, true) := by
  intro vs
  induction vs with
  | nil => intro s _; rfl
  | cons v rest ih =>
      intro s hpre
      have hv : (s.lookup (v.story_id ++ "_" ++ v.language)).isSome :=
        hpre v (List.mem_cons_self v rest)
      obtain ⟨r, hr⟩ := Option.isSome_iff_exists.mp hv
      obtain ⟨s2, hupd⟩ : ∃ s2, update_status s (v.story_id ++ "_" ++ v.language)
          .in_production [.notes (some ("Started production batch on " ++ today))] now
          = .ok s2 := by
        simp only [update_status, hr]
        exact ⟨_, rfl⟩
      have hkeys := update_status_preserves_keys _ _ _ _ _ _ hupd
      simp only [markLoop, hupd, markAll, List.foldl_cons]
      refine ih s2 (fun w hw => ?_)
      rw [hkeys (w.story_id ++ "_" ++ w.language)]
      exact hpre w (List.mem_cons_of_mem v hw)

/-- **C6, counterexample.**  A batch containing first a record whose id is
absent from the store (`ghost_en`) and then a perfectly healthy record
(`g_en`, present and SCRIPT_READY): the first failure aborts the whole loop
— the call returns the store unchanged and `false`, and the healthy record
is never moved to IN_PRODUCTION, contradicting the claim that one failing
record never aborts the updates of the others. -/
theorem mark_batch_failure_aborts_rest :
    mark_batch_in_production [("g_en", recG)] [("en", [recGhost, recG])] "T1" "D1"
      = ([("g_en", recG)], false) ∧
    recG.status = .script_ready := by
  decide

/-- **C6, amended.**  `mark_batch_in_production` wraps the whole loop in one
try/except: records are updated in batch order until the first failing
record (unknown video id), whose exception aborts the remaining updates —
the records before it keep their IN_PRODUCTION update, the failing record
and all later ones are untouched, and the call returns `false`.  Only when
every record of the batch updates successfully does it return `true`. -/
theorem mark_batch_aborts_on_failure (now today : String) :
    (∀ (s : Store) (batch : Batches) (pre : List VideoMetadata)
        (bad : VideoMetadata) (post : List VideoMetadata),
      flattenBatch batch = pre ++ bad :: post →
      (∀ v ∈ pre, (s.lookup (v.story_id ++ "_" ++ v.language)).isSome) →
      s.lookup (bad.story_id ++ "_" ++ bad.language) = none →
      mark_batch_in_production s batch now today = (markAll s pre now today, false)) ∧
    (∀ (s : Store) (batch : Batches),
      (∀ v ∈ flattenBatch batch, (s.lookup (v.story_id ++ "_" ++ v.language)).isSome) →
      mark_batch_in_production s batch now today
        = (markAll s (flattenBatch batch) now today, true)) := by
  constructor
  · intro s batch pre bad post hflat hpre hbad
    unfold mark_batch_in_production
    rw [hflat]
    exact markLoop_fail_prefix now today pre s bad post hpre hbad
  · intro s batch h
    unfold mark_batch_in_production
    exact markLoop_all_ok now today _ s h

/-- Closed instance of `mark_batch_aborts_on_failure`: one updated record,
then the failing one, then a record left untouched. -/
theorem mark_batch_aborts_on_failure_witness :
    mark_batch_in_production [("g_en", recG), ("b_fr", recB)]
        [("en", [recG, recGhost]), ("fr", [recB])] "T1" "D1"
      = (markAll [("g_en", recG), ("b_fr", recB)] [recG] "T1" "D1", false) :=
  (mark_batch_aborts_on_failure "T1" "D1").1 [("g_en", recG), ("b_fr", recB)]
    [("en", [recG, recGhost]), ("fr", [recB])] [recG] recGhost [recB]
    (by decide)
    (by intro v hv
        rw [List.mem_singleton] at hv
        subst hv
        decide)
    (by decide)

/-! ## Claim C8 -/

/-- One more day of `_generate_publishing_slots` appends that day's block. -/
theorem generate_slots_succ (swd : Nat) (cfg : Config) (n : Nat) :
    generate_publishing_slots swd cfg (n + 1)
      = generate_publishing_slots swd cfg n ++ daySlots swd cfg n := by
  unfold generate_publishing_slots
  rw [List.range_succ, List.foldl_append, List.foldl_cons, List.foldl_nil]
  unfold daySlots
  dsimp only
  split
  · split
    · rfl
    · rw [List.append_nil]
  · rw [List.append_nil]

/-- Membership in the generated slot list is membership in some day block
with day offset below `days`. -/
theorem mem_generate_slots (swd : Nat) (cfg : Config) :
    ∀ (days : Nat) (sl : Slot),
      sl ∈ generate_publishing_slots swd cfg days ↔
        ∃ d, d < days ∧ sl ∈ daySlots swd cfg d := by
  intro days
  induction days with
  | zero =>
      intro sl
      constructor
      · intro h
        cases h
      · rintro ⟨d, hd, -⟩
        omega
  | succ n ih =>
      intro sl
      rw [generate_slots_succ, List.mem_append, ih]
      constructor
      · rintro (⟨d, hd, hm⟩ | hm)
        · exact ⟨d, Nat.lt_succ_of_lt hd, hm⟩
        · exact ⟨n, Nat.lt_succ_self n, hm⟩
      · rintro ⟨d, hd, hm⟩
        rcases Nat.lt_succ_iff_lt_or_eq.mp hd with h | h
        · exact .inl ⟨d, h, hm⟩
        · subst h
          exact .inr hm

/-- Characterization of one day block of slots. -/
theorem mem_daySlots (swd : Nat) (cfg : Config) (d : Nat) (sl : Slot) :
    sl ∈ daySlots swd cfg d ↔
      ((swd + d) % 7 + 1 ∈ cfg.upload_schedule.days_of_week ∧
       0 < cfg.daily_upload_limit ∧
       ∃ k, k < cfg.daily_upload_limit ∧
         cfg.upload_schedule.start_hour + k * max 1
             ((cfg.upload_schedule.end_hour - cfg.upload_schedule.start_hour) /
               cfg.daily_upload_limit) < cfg.upload_schedule.end_hour ∧
         sl = { day_offset := d,
                hour := cfg.upload_schedule.start_hour + k * max 1
                  ((cfg.upload_schedule.end_hour - cfg.upload_schedule.start_hour) /
                    cfg.daily_upload_limit),
                slot_number := k + 1, assigned_video := none }) := by
  unfold daySlots
  split
  · split
    · rename_i h1 h2
      simp only [List.mem_filterMap, List.mem_range]
      constructor
      · rintro ⟨k, hk, hsome⟩
        split at hsome
        · rename_i hlt
          injection hsome with h3
          subst h3
          exact ⟨h1, h2, k, hk, hlt, rfl⟩
        · cases hsome
      · rintro ⟨-, -, k, hk, hlt, rfl⟩
        refine ⟨k, hk, ?_⟩
        rw [if_pos hlt]
    · rename_i h1 h2
      simp only [List.not_mem_nil, false_iff]
      rintro ⟨-, hpos, -⟩
      exact h2 hpos
  · rename_i h1
    simp only [List.not_mem_nil, false_iff]
    rintro ⟨hdow, -⟩
    exact h1 hdow

/-- **C8, confirmed.**  For a positive daily upload limit,
`_generate_publishing_slots` produces exactly the slots of the claim: one
slot per day offset below `days` whose weekday is configured, at hours
`start_hour + k * interval` for `k` below the daily limit with
`interval = max 1 ((end_hour - start_hour) / daily_upload_limit)`, slots at
or past `end_hour` omitted, each slot unassigned — and for the spec example
(start on a Monday, 7 days, default configuration) the result is exactly
two slots per weekday at hours 10 and 14 and none on the weekend. -/
theorem generate_slots_spec :
    (∀ (swd days : Nat) (cfg : Config), 0 < cfg.daily_upload_limit →
      ∀ sl : Slot, sl ∈ generate_publishing_slots swd cfg days ↔
        (sl.day_offset < days ∧
         (swd + sl.day_offset) % 7 + 1 ∈ cfg.upload_schedule.days_of_week ∧
         sl.assigned_video = none ∧
         ∃ k, k < cfg.daily_upload_limit ∧ sl.slot_number = k + 1 ∧
           sl.hour = cfg.upload_schedule.start_hour + k * max 1
             ((cfg.upload_schedule.end_hour - cfg.upload_schedule.start_hour) /
               cfg.daily_upload_limit) ∧
           sl.hour < cfg.upload_schedule.end_hour)) ∧
    generate_publishing_slots 0 {} 7 =
      [⟨0, 10, 1, none⟩, ⟨0, 14, 2, none⟩, ⟨1, 10, 1, none⟩, ⟨1, 14, 2, none⟩,
       ⟨2, 10, 1, none⟩, ⟨2, 14, 2, none⟩, ⟨3, 10, 1, none⟩, ⟨3, 14, 2, none⟩,
       ⟨4, 10, 1, none⟩, ⟨4, 14, 2, none⟩] := by
  constructor
  · intro swd days cfg hlim sl
    rw [mem_generate_slots]
    constructor
    · rintro ⟨d, hd, hm⟩
      rw [mem_daySlots] at hm
      obtain ⟨hdow, -, k, hk, hlt, rfl⟩ := hm
      exact ⟨hd, hdow, rfl, k, hk, rfl, rfl, hlt⟩
    · rintro ⟨hd, hdow, hassigned, k, hk, hnum, hhour, hlt⟩
      refine ⟨sl.day_offset, hd, ?_⟩
      rw [mem_daySlots]
      refine ⟨hdow, hlim, k, hk, ?_, ?_⟩
      · rw [← hhour]
        exact hlt
      · cases sl with
        | mk d0 h0 n0 a0 =>
            simp only [Slot.mk.injEq]
            exact ⟨trivial, hhour, hnum, hassigned⟩
  · decide

/-- Closed instance of `generate_slots_spec`: the Wednesday 14:00 slot of
the spec example is produced. -/
theorem generate_slots_spec_witness :
    (⟨2, 14, 2, none⟩ : Slot) ∈ generate_publishing_slots 0 {} 7 :=
  (generate_slots_spec.1 0 7 {} (by decide) ⟨2, 14, 2, none⟩).mpr
    ⟨by decide, by decide, rfl, 1, by decide, by decide, by decide, by decide⟩

/-! ## Claim C9 -/

/-- A `schedule_publishing` call that reports `false` leaves the store
untouched. -/
theorem schedule_publishing_fail (s : Store) (vid pt now : String)
    (h : (schedule_publishing s vid pt now).2 = false) :
    schedule_publishing s vid pt now = (s, false) := by
  cases hv : s.lookup vid with
  | none => simp only [schedule_publishing, hv]
  | some v =>
      by_cases hst : v.status = VideoStatus.ready_to_publish
      · exfalso
        have heq : schedule_publishing s vid pt now
            = (s.set vid (schedRec v pt now), true) := by
          simp only [schedule_publishing, hv]
          rw [if_neg (fun hne => hne hst)]
          rfl
        rw [heq] at h
        exact Bool.noConfusion h
      · simp only [schedule_publishing, hv]
        rw [if_pos hst]

/-- A `schedule_publishing` call that reports `true` found a
READY_TO_PUBLISH record and moved it to SCHEDULED with the publish time. -/
theorem schedule_publishing_true (s : Store) (vid pt now : String)
    (h : (schedule_publishing s vid pt now).2 = true) :
    ∃ v, s.lookup vid = some v ∧ v.status = .ready_to_publish ∧
      schedule_publishing s vid pt now = (s.set vid (schedRec v pt now), true) := by
  cases hv : s.lookup vid with
  | none =>
      have heq : schedule_publishing s vid pt now = (s, false) := by
        simp only [schedule_publishing, hv]
      rw [heq] at h
      exact Bool.noConfusion h
  | some v =>
      by_cases hst : v.status = VideoStatus.ready_to_publish
      · refine ⟨v, rfl, hst, ?_⟩
        simp only [schedule_publishing, hv]
        rw [if_neg (fun hne => hne hst)]
        rfl
      · exfalso
        have heq : schedule_publishing s vid pt now = (s, false) := by
          simp only [schedule_publishing, hv]
          rw [if_pos hst]
        rw [heq] at h
        exact Bool.noConfusion h

/-- Invariant of the scheduling loop of `auto_schedule_videos`: starting
from a store reachable from `s` by zero or more successful schedules, the
loop result is still reachable, a zero counter means nothing ever changed,
and a positive counter exhibits a record moved to SCHEDULED. -/
theorem schedLoop_spec (s : Store) (now : String) :
    ∀ (queue : List Slot) (st : Store) (c : Nat),
      ReachSched s st → (c = 0 → st = s) → (0 < c → WitnessSched s st) →
      ReachSched s (schedLoop queue st c now).1 ∧
      ((schedLoop queue st c now).2 = 0 → (schedLoop queue st c now).1 = s) ∧
      (0 < (schedLoop queue st c now).2 → WitnessSched s (schedLoop queue st c now).1) := by
  intro queue
  induction queue with
  | nil =>
      intro st c h1 h2 h3
      exact ⟨h1, h2, h3⟩
  | cons slot rest ih =>
      intro st c h1 h2 h3
      cases hav : slot.assigned_video with
      | none =>
          simp only [schedLoop, hav]
          exact ih st c h1 h2 h3
      | some av =>
          simp only [schedLoop, hav]
          cases hok : (schedule_publishing st av.video_id (slotTime slot) now).2 with
          | false =>
              rw [schedule_publishing_fail st av.video_id (slotTime slot) now hok]
              exact ih st c h1 h2 h3
          | true =>
              obtain ⟨v, hv, hrtp, heq⟩ :=
                schedule_publishing_true st av.video_id (slotTime slot) now hok
              rw [heq]
              have hvs : s.lookup av.video_id = some v := by
                rcases h1 av.video_id with hsame | ⟨v0, v2, _, _, hst2, hsched2, -⟩
                · rw [← hsame, hv]
                · rw [hv] at hst2
                  injection hst2 with hvv
                  rw [← hvv] at hsched2
                  rw [hrtp] at hsched2
                  exact VideoStatus.noConfusion hsched2
              have hreach2 : ReachSched s
                  (st.set av.video_id (schedRec v (slotTime slot) now)) := by
                intro k
                by_cases hk : k = av.video_id
                · subst hk
                  refine .inr ⟨v, _, hvs, hrtp, Store.lookup_set_self _ _ _, rfl, ?_⟩
                  simp [schedRec]
                · rw [Store.lookup_set_ne _ _ _ _ hk]
                  exact h1 k
              have hwit2 : WitnessSched s
                  (st.set av.video_id (schedRec v (slotTime slot) now)) := by
                refine ⟨av.video_id, v, _, hvs, hrtp, Store.lookup_set_self _ _ _, rfl, ?_⟩
                simp [schedRec]
              exact ih (st.set av.video_id (schedRec v (slotTime slot) now)) (c + 1)
                hreach2 (fun hc => absurd hc (Nat.succ_ne_zero c)) (fun _ => hwit2)

/-- **C9, confirmed.**  `auto_schedule_videos` returns `true` exactly when
at least one record was moved from READY_TO_PUBLISH to SCHEDULED with a
non-null `scheduled_publish_time` during the call; when no record is
READY_TO_PUBLISH, or when no publishing slot is generated, it returns
`false` and leaves the store completely unchanged.  (A
`schedule_publishing` call inside the loop that returns `false` — a record
no longer READY_TO_PUBLISH at write time — is skipped and the loop goes on,
which is the case split of `schedLoop_spec`.) -/
theorem auto_schedule_spec (s : Store) (cfg : Config) (swd days : Nat) (now : String) :
    ((auto_schedule_videos s cfg swd days now).2 = true ↔
      WitnessSched s (auto_schedule_videos s cfg swd days now).1) ∧
    ((∀ v ∈ s.values, v.status ≠ .ready_to_publish) →
      (auto_schedule_videos s cfg swd days now).2 = false ∧
      (auto_schedule_videos s cfg swd days now).1 = s) ∧
    (generate_publishing_slots swd cfg days = [] →
      (auto_schedule_videos s cfg swd days now).2 = false ∧
      (auto_schedule_videos s cfg swd days now).1 = s) := by
  obtain ⟨hreach, hzero, hpos⟩ := schedLoop_spec s now
    (get_publishing_queue s cfg swd days) s 0
    (fun _ => .inl rfl) (fun _ => rfl) (fun h => absurd h (by omega))
  refine ⟨⟨?_, ?_⟩, ?_, ?_⟩
  · intro h
    have h2 : 0 < (schedLoop (get_publishing_queue s cfg swd days) s 0 now).2 :=
      of_decide_eq_true h
    exact hpos h2
  · intro h
    show decide (0 < (schedLoop (get_publishing_queue s cfg swd days) s 0 now).2) = true
    refine decide_eq_true ?_
    by_contra hc
    have hc0 : (schedLoop (get_publishing_queue s cfg swd days) s 0 now).2 = 0 := by
      omega
    have hs := hzero hc0
    have h2 : WitnessSched s
        ((schedLoop (get_publishing_queue s cfg swd days) s 0 now).1) := h
    rw [hs] at h2
    obtain ⟨vid, v, v2, hv, hrtp, hv2, hsched, -⟩ := h2
    rw [hv] at hv2
    injection hv2 with hvv
    rw [← hvv] at hsched
    rw [hrtp] at hsched
    exact VideoStatus.noConfusion hsched
  · intro h
    have hq : get_publishing_queue s cfg swd days = [] := by
      have hready : get_ready_to_publish_videos s = [] := by
        unfold get_ready_to_publish_videos get_videos_by_status
        refine List.filter_eq_nil_iff.mpr ?_
        intro v hv
        simp only [decide_eq_true_eq]
        exact h v hv
      unfold get_publishing_queue
      rw [hready]
      rfl
    constructor
    · show decide (0 < (schedLoop (get_publishing_queue s cfg swd days) s 0 now).2) = false
      rw [hq]
      rfl
    · show (schedLoop (get_publishing_queue s cfg swd days) s 0 now).1 = s
      rw [hq]
      rfl
  · intro h
    have hq : get_publishing_queue s cfg swd days = [] := by
      unfold get_publishing_queue
      rw [h]
      dsimp only
      split
      · rfl
      · unfold assign_videos_to_slots
        simp
    constructor
    · show decide (0 < (schedLoop (get_publishing_queue s cfg swd days) s 0 now).2) = false
      rw [hq]
      rfl
    · show (schedLoop (get_publishing_queue s cfg swd days) s 0 now).1 = s
      rw [hq]
      rfl

/-- Closed instance of `auto_schedule_spec`: with a zero-day window there
are no slots, so nothing is scheduled and the store is untouched. -/
theorem auto_schedule_spec_witness :
    (auto_schedule_videos [("a_en", recA)] {} 0 0 "T1").2 = false ∧
    (auto_schedule_videos [("a_en", recA)] {} 0 0 "T1").1 = [("a_en", recA)] :=
  (auto_schedule_spec [("a_en", recA)] {} 0 0 "T1").2.2 (by decide)

/-! ## Claim C5 -/

/-- **C5, counterexample.**  A READY_TO_PUBLISH record lasting 10 seconds
(far below `min_duration = 60`) with neither video file nor thumbnail is
nevertheless assigned the very first publishing slot: the scheduler never
consults `quality_thresholds` or the asset fields. -/
theorem ineligible_record_gets_slot :
    recX.status = .ready_to_publish ∧
    recX.duration_seconds = some 10 ∧
    ({} : Config).quality_thresholds.min_duration = 60 ∧
    recX.video_path = none ∧
    recX.thumbnail_path = none ∧
    (get_publishing_queue [("x_en", recX)] {} 0 7).head? =
      some { day_offset := 0, hour := 10, slot_number := 1,
             assigned_video := some (mkAssigned recX) } := by
  decide

/-- **C5, amended.**  A record is considered for a publish slot if and only
if its status is READY_TO_PUBLISH: every assigned slot of
`get_publishing_queue` carries a READY_TO_PUBLISH record of the store, and
the candidate list is exactly the READY_TO_PUBLISH filter — duration bounds
and required assets are never checked. -/
theorem publishing_queue_eligibility :
    (∀ (s : Store) (cfg : Config) (swd days : Nat),
      ∀ sl ∈ get_publishing_queue s cfg swd days,
        ∃ v, v ∈ s.values ∧ v.status = .ready_to_publish ∧
          sl.assigned_video = some (mkAssigned v)) ∧
    (∀ (s : Store) (v : VideoMetadata),
      v ∈ get_ready_to_publish_videos s ↔
        (v ∈ s.values ∧ v.status = .ready_to_publish)) := by
  constructor
  · intro s cfg swd days sl hsl
    unfold get_publishing_queue at hsl
    dsimp only at hsl
    split at hsl
    · cases hsl
    · unfold assign_videos_to_slots at hsl
      split at hsl
      · cases hsl
      · simp only [List.mem_map] at hsl
        obtain ⟨⟨slot, v⟩, hmem, rfl⟩ := hsl
        have hv := (List.of_mem_zip hmem).2
        rw [mem_sortBy] at hv
        unfold get_ready_to_publish_videos get_videos_by_status at hv
        rw [List.mem_filter] at hv
        refine ⟨v, hv.1, ?_, rfl⟩
        have h2 := hv.2
        simpa using h2
  · intro s v
    unfold get_ready_to_publish_videos get_videos_by_status
    rw [List.mem_filter]
    simp

/-- Closed instance of `publishing_queue_eligibility`: the record behind
the assigned slot of the concrete queue is a READY_TO_PUBLISH store
record. -/
theorem publishing_queue_eligibility_witness :
    ∃ v, v ∈ Store.values [("x_en", recX)] ∧ v.status = .ready_to_publish ∧
      ({ day_offset := 0, hour := 10, slot_number := 1,
         assigned_video := some (mkAssigned recX) } : Slot).assigned_video
        = some (mkAssigned v) :=
  publishing_queue_eligibility.1 [("x_en", recX)] {} 0 7
    { day_offset := 0, hour := 10, slot_number := 1,
      assigned_video := some (mkAssigned recX) } (by decide)

/-! ## Claim C3 -/

/-- Records reachable through `getL` are among `allVideos`. -/
theorem Batches.mem_allVideos_of_getL (b : Batches) (k : String)
    (l : List VideoMetadata) (hl : b.getL k = some l) :
    ∀ v ∈ l, v ∈ b.allVideos := by
  induction b with
  | nil => cases hl
  | cons p rest ih =>
      obtain ⟨k0, v0⟩ := p
      intro v hv
      by_cases h : k = k0
      · simp only [Batches.getL, if_pos h, Option.some.injEq] at hl
        subst hl
        simp only [Batches.allVideos, List.map_cons, List.flatten_cons, List.mem_append]
        exact .inl hv
      · simp only [Batches.getL, if_neg h] at hl
        simp only [Batches.allVideos, List.map_cons, List.flatten_cons, List.mem_append]
        exact .inr (ih hl v hv)

/-- Total size bound for the per-language quota phase: each processed
language adds at most `q` records. -/
theorem quotaFold_total_le (f : String → List VideoMetadata) (q : Nat)
    (hf : ∀ lang, (f lang).length ≤ q) :
    ∀ (L : List String) (acc : Batches),
      (L.foldl (fun acc lang =>
          if (f lang).isEmpty then acc else acc.setL lang (f lang)) acc).total
        ≤ acc.total + L.length * q := by
  intro L
  induction L with
  | nil => intro acc; simp
  | cons lang rest ih =>
      intro acc
      rw [List.foldl_cons]
      by_cases he : (f lang).isEmpty
      · rw [if_pos he]
        refine le_trans (ih acc) ?_
        simp only [List.length_cons]
        exact Nat.add_le_add_left (Nat.mul_le_mul_right q (Nat.le_succ _)) _
      · rw [if_neg he]
        refine le_trans (ih (acc.setL lang (f lang))) ?_
        simp only [List.length_cons]
        have h1 : (acc.setL lang (f lang)).total ≤ acc.total + q :=
          le_trans (Batches.total_setL_le acc lang (f lang))
            (Nat.add_le_add_left (hf lang) _)
        calc (acc.setL lang (f lang)).total + rest.length * q
            ≤ (acc.total + q) + rest.length * q := Nat.add_le_add_right h1 _
          _ = acc.total + (rest.length + 1) * q := by ring

/-- Every record of the quota phase satisfies any property holding on the
per-language selections and on the accumulator. -/
theorem quotaFold_mem (f : String → List VideoMetadata) (P : VideoMetadata → Prop)
    (hf : ∀ lang, ∀ v ∈ f lang, P v) :
    ∀ (L : List String) (acc : Batches), (∀ v ∈ acc.allVideos, P v) →
      ∀ v ∈ (L.foldl (fun acc lang =>
          if (f lang).isEmpty then acc else acc.setL lang (f lang)) acc).allVideos, P v := by
  intro L
  induction L with
  | nil => intro acc hacc; exact hacc
  | cons lang rest ih =>
      intro acc hacc
      rw [List.foldl_cons]
      by_cases he : (f lang).isEmpty
      · rw [if_pos he]
        exact ih acc hacc
      · rw [if_neg he]
        refine ih _ ?_
        intro v hv
        rcases Batches.mem_allVideos_setL acc lang (f lang) v hv with h | h
        · exact hacc v h
        · exact hf lang v h

/-- The leftover fill adds exactly one record per processed video. -/
theorem fillFold_total :
    ∀ (vs : List VideoMetadata) (acc : Batches),
      (vs.foldl (fun acc v =>
          acc.setL v.language (((acc.getL v.language).getD []) ++ [v])) acc).total
        = acc.total + vs.length := by
  intro vs
  induction vs with
  | nil => intro acc; simp
  | cons v rest ih =>
      intro acc
      rw [List.foldl_cons, ih, Batches.total_setL_append]
      simp only [List.length_cons]
      omega

/-- Every record after the leftover fill comes from the accumulator or from
the processed list. -/
theorem fillFold_mem (P : VideoMetadata → Prop) :
    ∀ (vs : List VideoMetadata) (acc : Batches),
      (∀ v ∈ vs, P v) → (∀ v ∈ acc.allVideos, P v) →
      ∀ v ∈ (vs.foldl (fun acc v =>
          acc.setL v.language (((acc.getL v.language).getD []) ++ [v])) acc).allVideos, P v := by
  intro vs
  induction vs with
  | nil => intro acc _ hacc; exact hacc
  | cons v rest ih =>
      intro acc hvs hacc
      rw [List.foldl_cons]
      refine ih _ (fun w hw => hvs w (List.mem_cons_of_mem v hw)) ?_
      intro w hw
      rcases Batches.mem_allVideos_setL _ _ _ w hw with h | h
      · exact hacc w h
      · rw [List.mem_append] at h
        rcases h with h | h
        · cases hl : (acc.getL v.language) with
          | none => rw [hl] at h; cases h
          | some l =>
              rw [hl] at h
              exact hacc w (Batches.mem_allVideos_of_getL acc v.language l hl w h)
        · rw [List.mem_singleton] at h
          subst h
          exact hvs w (List.mem_cons_self _ _)

/-- Membership in a status filter of the store. -/
theorem mem_get_videos_by_status (s : Store) (st : VideoStatus) (v : VideoMetadata) :
    v ∈ get_videos_by_status s st ↔ (v ∈ s.values ∧ v.status = st) := by
  unfold get_videos_by_status
  rw [List.mem_filter]
  simp

/-- Filling `B - n` slots on top of `n` selected records never exceeds `B`. -/
theorem take_fill_le {α : Type} (n B : Nat) (l : List α) (h : n < B) :
    n + (l.take (B - n)).length ≤ B := by
  have := List.length_take_le (B - n) l
  omega

/-- **C3, counterexample.**  With batch size 2 and three priority languages
each having one SCRIPT_READY record, the per-language quota is
`max(1, 2 // 3) = 1` and the batch contains 3 records — more than the batch
size, refuting the claimed bound for `len(L) > B`. -/
theorem batch_exceeds_size :
    (get_next_production_batch storeABC { batch_size := 2 } (some ["en", "es", "fr"])).total = 3 ∧
    ¬ (get_next_production_batch storeABC { batch_size := 2 } (some ["en", "es", "fr"])).total ≤ 2 ∧
    ({ batch_size := 2 } : Config).batch_size = 2 := by
  decide

/-- **C3, amended.**  Every record of the returned batch is SCRIPT_READY
and comes from the store; the total never exceeds
`max(B, len(L) * max(1, B // len(L)))`, which equals `B` — so the claimed
bound does hold — whenever `len(L) ≤ B`; only for `len(L) > B` can the
boosted per-language quota of one push the total above `B`. -/
theorem batch_total_bound (s : Store) (cfg : Config) (L : List String)
    (hL : L ≠ []) (_hB : 1 ≤ cfg.batch_size) :
    (∀ v ∈ (get_next_production_batch s cfg (some L)).allVideos,
        v.status = .script_ready ∧ v ∈ s.values) ∧
    (get_next_production_batch s cfg (some L)).total
      ≤ max cfg.batch_size (L.length * max 1 (cfg.batch_size / L.length)) ∧
    (L.length ≤ cfg.batch_size →
      (get_next_production_batch s cfg (some L)).total ≤ cfg.batch_size) := by
  have hreadyP : ∀ v ∈ get_videos_by_status s .script_ready,
      v.status = .script_ready ∧ v ∈ s.values := by
    intro v hv
    rw [mem_get_videos_by_status] at hv
    exact ⟨hv.2, hv.1⟩
  have hfP : ∀ lang, ∀ v ∈ ((sortBy createdLe
      ((get_videos_by_status s .script_ready).filter
        (fun v => v.language = lang))).take
          (max 1 (cfg.batch_size / L.length))),
      v.status = .script_ready ∧ v ∈ s.values := by
    intro lang v hv
    have h1 := List.mem_of_mem_take hv
    rw [mem_sortBy] at h1
    rw [List.mem_filter] at h1
    exact hreadyP v h1.1
  have hflen : ∀ lang, ((sortBy createdLe
      ((get_videos_by_status s .script_ready).filter
        (fun v => v.language = lang))).take
          (max 1 (cfg.batch_size / L.length))).length
      ≤ max 1 (cfg.batch_size / L.length) := by
    intro lang
    exact List.length_take_le _ _
  have hmain : (∀ v ∈ (get_next_production_batch s cfg (some L)).allVideos,
        v.status = .script_ready ∧ v ∈ s.values) ∧
      (get_next_production_batch s cfg (some L)).total
        ≤ max cfg.batch_size (L.length * max 1 (cfg.batch_size / L.length)) := by
    unfold get_next_production_batch
    dsimp only
    split
    · rename_i hlt
      constructor
      · refine fillFold_mem _ _ _ ?_ ?_
        · intro v hv
          have h1 := List.mem_of_mem_take hv
          rw [List.mem_filter] at h1
          exact hreadyP v h1.1
        · exact quotaFold_mem _ _ hfP L [] (by intro v hv; cases hv)
      · rw [fillFold_total]
        refine le_trans ?_ (le_max_left _ _)
        exact take_fill_le _ _ _ hlt
    · rename_i hge
      constructor
      · exact quotaFold_mem _ _ hfP L [] (by intro v hv; cases hv)
      · refine le_trans (quotaFold_total_le _ _ hflen L []) ?_
        simp only [Batches.total, List.map_nil, List.sum_nil, Nat.zero_add]
        exact le_max_right _ _
  refine ⟨hmain.1, hmain.2, fun hLB => ?_⟩
  have hL0 : 0 < L.length := List.length_pos.mpr hL
  have hq1 : 1 ≤ cfg.batch_size / L.length := (Nat.one_le_div_iff hL0).mpr hLB
  have hle : L.length * max 1 (cfg.batch_size / L.length) ≤ cfg.batch_size := by
    rw [max_eq_right hq1, mul_comm]
    exact Nat.div_mul_le_self cfg.batch_size L.length
  have h2 := hmain.2
  rw [max_eq_left hle] at h2
  exact h2

/-- Closed instance of `batch_total_bound`: the general bound at the
concrete three-language store. -/
theorem batch_total_bound_witness :
    (get_next_production_batch storeABC { batch_size := 2 } (some ["en", "es", "fr"])).total
      ≤ max ({ batch_size := 2 } : Config).batch_size
          ((["en", "es", "fr"] : List String).length *
            max 1 (({ batch_size := 2 } : Config).batch_size /
              (["en", "es", "fr"] : List String).length)) :=
  (batch_total_bound storeABC { batch_size := 2 } ["en", "es", "fr"]
    (by decide) (by decide)).2.1

/-! ## Claim C4 -/

/-- **C4, counterexample.**  The code deviates from the claimed algorithm
twice: with batch size 2 and three languages the claimed quota
`floor(2/3) = 0` would select nothing per language and fill only 2 records,
while the code (quota `max(1, 0) = 1`) returns 3; and in the fill phase the
code takes the leftover SCRIPT_READY records in store snapshot order, not in
ascending `created_at` order, as `storeFill` (insertion order disagreeing
with creation order) shows. -/
theorem batch_algorithm_deviates :
    get_next_production_batch storeABC { batch_size := 2 } (some ["en", "es", "fr"])
      ≠ claimedBatchSelection storeABC 2 ["en", "es", "fr"] ∧
    get_next_production_batch storeFill { batch_size := 3 } (some ["en"])
      ≠ claimedBatchSelection storeFill 3 ["en"] := by
  decide

/-- **C4, amended.**  The selection algorithm uses the per-language quota
`max(1, floor(B / len(L)))` with oldest-first order inside each language,
and fills the remaining slots with not-yet-selected SCRIPT_READY records in
store snapshot order (not sorted by `created_at`).  The worked example of
the spec still holds: with `L = [en, es, fr]`, `B = 6`, five SCRIPT_READY
`en` records and one `es`, the batch is the five `en` records oldest first
plus the `es` record; with `B = 2` and one record per language the boosted
quota returns one record for each of the three languages; and on a store
whose insertion order disagrees with creation order the fill keeps the
store order. -/
theorem batch_selection_example :
    get_next_production_batch storeFive { batch_size := 6 } (some ["en", "es", "fr"])
      = [("en", [recE1, recE2, recE3, recE4, recE5]), ("es", [recS1])] ∧
    get_next_production_batch storeABC { batch_size := 2 } (some ["en", "es", "fr"])
      = [("en", [recAen]), ("es", [recBes]), ("fr", [recCfr])] ∧
    get_next_production_batch storeFill { batch_size := 3 } (some ["en"])
      = [("en", [recFa]), ("es", [recFb, recFc])] := by
  decide
